import Mathlib

/-!
Verification of the WhatsApp → Spotify playlist sync scripts
(`scripts/spotify.py`, `scripts/main.py`, `scripts/gcp_main.py`).

The development shallowly embeds the pieces of the program the claims are
about: the chronological reconciliation engine, the batched playlist
mutators with their process-wide success accumulator, the link extractor
(including executable models of the two URL regexes) and the URL → URI
resolvers.  Python strings are modelled as `String` / `List Char`; the
remote Spotify API is modelled by a trace of issued requests
(`SpotifyOp`) plus per-batch failure oracles standing for the
`try/except` blocks around each request.
-/

namespace SpotifySync

/-! ## Generic helpers for the Python idioms used by the scripts -/

/-- `range(0, stop, step)` of Python for a positive `step`: the indices
`0, step, 2*step, …` below `stop`.  (`step = 0` raises in Python and is
never reached; the model returns `[]` there.) -/
def pyRangeStep (stop step : Nat) : List Nat :=
  List.range' 0 ((stop + step - 1) / step) step

/-- The batch slicing `l[i:i+size]` for each `i in range(0, len(l), size)`
performed by both mutators. -/
def chunksOf (size : Nat) (l : List α) : List (List α) :=
  (pyRangeStep l.length size).map (fun i => (l.drop i).take size)

/-- Python `s.split(sep)` for a one-character separator: every part is
kept, empty parts included, and the result is never empty. -/
def pySplitChar (sep : Char) : List Char → List (List Char)
  | [] => [[]]
  | c :: rest =>
    if c = sep then
      [] :: pySplitChar sep rest
    else
      match pySplitChar sep rest with
      | [] => [[c]]
      | p :: ps => (c :: p) :: ps

/-- The whitespace class used by Python `str.strip()` and `\s`
(restricted to the ASCII separators that can occur in a chat export). -/
def isSpaceChar (c : Char) : Bool :=
  c = ' ' || c = '\t' || c = '\n' || c = '\r' || c = '\x0b' || c = '\x0c'

/-- Python `s.strip()`. -/
def pyStrip (l : List Char) : List Char :=
  ((l.dropWhile isSpaceChar).reverse.dropWhile isSpaceChar).reverse

/-- Python `str.splitlines()` for the newline conventions of a chat
export (`\n`, `\r`, `\r\n`): no trailing empty line is produced. -/
def pySplitLines : List Char → List (List Char) :=
  go []
where
  go (cur : List Char) : List Char → List (List Char)
    | [] => if cur = [] then [] else [cur.reverse]
    | '\r' :: '\n' :: rest => cur.reverse :: go [] rest
    | '\n' :: rest => cur.reverse :: go [] rest
    | '\r' :: rest => cur.reverse :: go [] rest
    | c :: rest => go (c :: cur) rest

/-- If `pre` is a prefix of `l`, the remainder of `l` after it. -/
def stripPrefixList : List Char → List Char → Option (List Char)
  | [], l => some l
  | _ :: _, [] => none
  | p :: ps, c :: cs => if p = c then stripPrefixList ps cs else none

/-- The regex class `[a-zA-Z0-9]`. -/
def isAlnumChar (c : Char) : Bool :=
  ('a' ≤ c && c ≤ 'z') || ('A' ≤ c && c ≤ 'Z') || ('0' ≤ c && c ≤ '9')

/-- The regex class `[a-z]`. -/
def isLowerAZ (c : Char) : Bool := 'a' ≤ c && c ≤ 'z'

/-- The regex class `[a-z0-9]`. -/
def isIdChar (c : Char) : Bool := isLowerAZ c || ('0' ≤ c && c ≤ '9')

/-- The regex class `[^\/\?]`. -/
def isSegChar (c : Char) : Bool := !(c = '/') && !(c = '?')

/-! ## The batched mutators (`spotify.py` lines 218–277)

The remote API is a trace of issued requests; a per-batch failure oracle
`Nat → Bool` tells which requests raise (the scripts catch these
exceptions per batch for additions, and per call for removals). -/

/-- One request issued against the Spotify playlist API. -/
inductive SpotifyOp
  | addItems (chunk : List String)
  | removeItems (chunk : List String)
deriving DecidableEq

/-- The URI validation of `add_tracks_to_playlist`:
`uri and isinstance(uri, str) and uri.startswith("spotify:track:") and
len(uri.split(':')[-1]) == 22`. -/
def isValidTrackUri (uri : String) : Bool :=
  !(uri.data = []) &&
  "spotify:track:".data.isPrefixOf uri.data &&
  ((pySplitChar ':' uri.data).getLastD []).length = 22

/-- The per-chunk loop of `add_tracks_to_playlist`: issue one
`playlist_add_items` request per chunk; a chunk whose request succeeds is
appended to the success accumulator, a failing chunk is only logged. -/
def addLoop (addFails : Nat → Bool) : Nat → List String → List (List String) →
    List SpotifyOp × List String
  | _, acc, [] => ([], acc)
  | j, acc, c :: cs =>
    let acc1 := if addFails j then acc else acc ++ c
    let rest := addLoop addFails (j + 1) acc1 cs
    (SpotifyOp.addItems c :: rest.1, rest.2)

/-- `add_tracks_to_playlist` (`spotify.py` lines 218–255; `gcp_main.py`
lines 153–165 is the same code).  `acc` is the process-wide global
`SUCCESSFULLY_ADDED_SONG_URIS_THIS_RUN` before the call.  Returns the
trace of issued requests, the accumulator after the call, and the
function's return value `len(SUCCESSFULLY_ADDED_SONG_URIS_THIS_RUN)`. -/
def add_tracks_to_playlist (addFails : Nat → Bool) (acc : List String)
    (track_uris_to_add : List String) : List SpotifyOp × List String × Nat :=
  if track_uris_to_add = [] then ([], acc, 0)
  else
    let valid_uris_to_add := track_uris_to_add.filter isValidTrackUri
    if valid_uris_to_add = [] then ([], acc, 0)
    else
      let r := addLoop addFails 0 acc (chunksOf 100 valid_uris_to_add)
      (r.1, r.2, r.2.length)

/-- `batch_size = max(1, min(batch_size, 100))` in
`remove_tracks_from_playlist_in_batches`. -/
def pyClampBatch (batch_size : Nat) : Nat := max 1 (min batch_size 100)

/-- The per-chunk loop of `remove_tracks_from_playlist_in_batches`: one
`playlist_remove_all_occurrences_of_items` request per chunk.  There is
no `try` inside the loop, so the first raising request aborts the
remaining batches; the flag records whether the loop ran to the end. -/
def removeLoop (removeFails : Nat → Bool) : Nat → List (List String) →
    List SpotifyOp × Bool
  | _, [] => ([], true)
  | j, c :: cs =>
    if removeFails j then ([SpotifyOp.removeItems c], false)
    else
      let rest := removeLoop removeFails (j + 1) cs
      (SpotifyOp.removeItems c :: rest.1, rest.2)

/-- `remove_tracks_from_playlist_in_batches` (`spotify.py` lines
258–277). -/
def remove_tracks_from_playlist_in_batches (removeFails : Nat → Bool)
    (track_uris_to_remove : List String) (batch_size : Nat) :
    List SpotifyOp × Bool :=
  if track_uris_to_remove = [] then ([], true)
  else removeLoop removeFails 0
    (chunksOf (pyClampBatch batch_size) track_uris_to_remove)

/-! ## The reconciliation engine (`spotify.py` lines 280–347) -/

/-- The lock-step scan
`for i, (chat_uri, existing_uri) in enumerate(zip(chat, existing))`:
index of the first pairwise mismatch, if any, within the overlap. -/
def firstMismatchAux : Nat → List String → List String → Option Nat
  | _, [], _ => none
  | _, _ :: _, [] => none
  | i, a :: as, b :: bs =>
    if a = b then firstMismatchAux (i + 1) as bs else some i

/-- The divergence computation of `sync_playlist_chronologically` (lines
313–326): `none` is the terminal "already in sync" state; otherwise the
index the code resyncs from.  When no mismatch is found in the overlap
and the lengths differ the code sets `divergence_index =
len(existing_uris)` — the length of the *current* playlist, whether or
not it is the shorter of the two sequences. -/
def divergence_or_sync (chat existing : List String) : Option Nat :=
  match firstMismatchAux 0 chat existing with
  | some i => some i
  | none =>
    if chat.length = existing.length then none else some existing.length

/-- The outcome of one `sync_playlist_chronologically` call: the trace of
issued requests, the global success accumulator after the call (the
function clears it on entry), the returned bool, and whether the
"already in sync" terminal message was logged. -/
structure SyncResult where
  ops : List SpotifyOp
  acc : List String
  ok : Bool
  inSync : Bool
deriving DecidableEq

/-- `sync_playlist_chronologically` (`spotify.py` lines 280–347).
`existing_uris` stands for the result of
`get_existing_playlist_track_uris_in_order`. -/
def sync_playlist_chronologically (addFails removeFails : Nat → Bool)
    (existing_uris ordered_track_uris_from_chat : List String) : SyncResult :=
  match divergence_or_sync ordered_track_uris_from_chat existing_uris with
  | none => ⟨[], [], true, true⟩
  | some d =>
    let songs_to_remove := existing_uris.drop d
    let songs_to_add := ordered_track_uris_from_chat.drop d
    let rem :=
      if songs_to_remove = [] then ([], true)
      else remove_tracks_from_playlist_in_batches removeFails songs_to_remove 100
    if rem.2 = false then ⟨rem.1, [], false, false⟩
    else
      let ad :=
        if songs_to_add = [] then ([], [], 0)
        else add_tracks_to_playlist addFails [] songs_to_add
      ⟨rem.1 ++ ad.1, ad.2.1, true, false⟩

/-- Step 7 of `process_spotify_from_drive` (`spotify.py` lines 886–897):
destructive mode runs the full reconciliation; add-only mode (the
default) filters the chat URIs through set membership in the current
playlist and appends the missing ones.  Returns the request trace and
the success accumulator after the step (it is `[]` when the step
starts: no addition has run earlier in the process). -/
def process_step7 (addFails removeFails : Nat → Bool) (destructive : Bool)
    (existing chat : List String) : List SpotifyOp × List String :=
  if destructive then
    let r := sync_playlist_chronologically addFails removeFails existing chat
    (r.ops, r.acc)
  else
    let to_add := chat.filter (fun uri => !(existing.contains uri))
    if to_add = [] then ([], [])
    else
      let r := add_tracks_to_playlist addFails [] to_add
      (r.1, r.2.1)

/-- `get_track_details_for_logging` (`spotify.py` lines 350–390): one
lookup request per chunk of 50 URIs, one display string appended per URI
of the chunk — in the success path from the returned track data (a
`None` entry becoming an `Unknown Track (URI: …)` placeholder), in the
exception path an `ErrorFetchingTrackDetailsForURI(…)` string per URI.
Both paths are per-URI, so the lookup is modelled by an oracle giving
each URI its display string. -/
def get_track_details_for_logging (lookup : String → String)
    (track_uris : List String) : List String :=
  if track_uris = [] then []
  else ((chunksOf 50 track_uris).map (fun chunk => chunk.map lookup)).flatten

/-! ## The URL → URI resolvers -/

/-- `re.search(r"open\.spotify\.com\/track\/([a-zA-Z0-9]{22})", url)`
tried at one position: the literal followed by exactly 22 characters of
`[a-zA-Z0-9]`, returning the captured identifier. -/
def matchTrack22At (l : List Char) : Option (List Char) :=
  match stripPrefixList "open.spotify.com/track/".data l with
  | none => none
  | some r =>
    let id := r.take 22
    if id.length = 22 && id.all isAlnumChar then some id else none

/-- The left-to-right scan of `re.search` for the pattern above. -/
def searchTrack22 : List Char → Option (List Char)
  | [] => none
  | c :: cs =>
    match matchTrack22At (c :: cs) with
    | some id => some id
    | none => searchTrack22 cs

/-- `get_track_uri_from_url` of `spotify.py` (lines 153–170) and
`gcp_main.py` (lines 129–133): strict extraction of a 22-character
identifier, `None` otherwise. -/
def get_track_uri_from_url (spotify_url : String) : Option String :=
  (searchTrack22 spotify_url.data).map
    (fun id => String.mk ("spotify:track:".data ++ id))

/-- Index of the first occurrence of `pat` in `l` (Python `in` /
`str.split` search). -/
def pyFind (pat : List Char) : List Char → Option Nat
  | [] => if pat = [] then some 0 else none
  | c :: cs =>
    if pat.isPrefixOf (c :: cs) then some 0
    else (pyFind pat cs).map (· + 1)

/-- Python `s.split(pat)` for a non-empty separator string, with fuel
(`fuel = length of s` always suffices: every split consumes at least the
separator). -/
def pySplitSub (pat : List Char) : Nat → List Char → List (List Char)
  | 0, l => [l]
  | fuel + 1, l =>
    match pyFind pat l with
    | none => [l]
    | some i => l.take i :: pySplitSub pat fuel (l.drop (i + pat.length))

/-- `get_track_uri_from_url` of `main.py` (lines 85–95): take whatever
stands between the first `"/track/"` and the next `'?'`, with no shape
validation at all. -/
def get_track_uri_from_url_main (spotify_url : String) : Option String :=
  let l := spotify_url.data
  if (pyFind "/track/".data l).isSome then
    let parts := pySplitSub "/track/".data l.length l
    let track_id_part := (parts.getD 1 []).takeWhile (fun c => !(c = '?'))
    if track_id_part = [] then none
    else some (String.mk ("spotify:track:".data ++ track_id_part))
  else none

/-! ## The link extractor (`spotify.py` lines 599–646) -/

/-- `https?` at the head: the optional `s` (deterministic, since the
next pattern character is `:`). -/
def matchOptS : List Char → List Char × List Char
  | 's' :: rest => (['s'], rest)
  | l => ([], l)

/-- One attempt of the pattern
`(https?:\/\/open\.spotify\.com\/track\/[a-zA-Z0-9]+)` at the current
position: the matched text and the remainder of the line. -/
def matchSpotifyAt (l : List Char) : Option (List Char × List Char) :=
  match stripPrefixList "http".data l with
  | none => none
  | some r1 =>
    let s := matchOptS r1
    match stripPrefixList "://open.spotify.com/track/".data s.2 with
    | none => none
    | some r3 =>
      let id := r3.takeWhile isAlnumChar
      if id = [] then none
      else
        some ("http".data ++ s.1 ++ "://open.spotify.com/track/".data ++ id,
          r3.drop id.length)

/-- `re.findall` for the Spotify pattern: scan left to right, emit each
non-overlapping match, advance one character on failure.  `fuel = length
of the line` suffices since every step consumes at least one
character. -/
def findallSpotify : Nat → List Char → List (List Char)
  | 0, _ => []
  | _, [] => []
  | fuel + 1, c :: cs =>
    match matchSpotifyAt (c :: cs) with
    | some m => m.1 :: findallSpotify fuel m.2
    | none => findallSpotify fuel cs

/-- The alternation `(?:album|song|playlist)`.  No alternative is a
prefix of another, so first-match commitment agrees with the regex. -/
def matchAppleTypeSeg (l : List Char) : Option (List Char × List Char) :=
  match stripPrefixList "album".data l with
  | some r => some ("album".data, r)
  | none =>
    match stripPrefixList "song".data l with
    | some r => some ("song".data, r)
    | none =>
      match stripPrefixList "playlist".data l with
      | some r => some ("playlist".data, r)
      | none => none

/-- One attempt of the pattern
`https?:\/\/music\.apple\.com\/[a-z]{2}\/(?:album|song|playlist)\/[^\/\?]+(?:\/[a-z0-9]+)?(?:\?[^\s]*)?`
at the current position.  All quantified pieces are followed only by
optional pieces, so greedy maximal munch agrees with the regex. -/
def matchAppleAt (l : List Char) : Option (List Char × List Char) :=
  match stripPrefixList "http".data l with
  | none => none
  | some r1 =>
    let s := matchOptS r1
    match stripPrefixList "://music.apple.com/".data s.2 with
    | none => none
    | some r3 =>
      match r3 with
      | c1 :: c2 :: '/' :: r4 =>
        if isLowerAZ c1 && isLowerAZ c2 then
          match matchAppleTypeSeg r4 with
          | none => none
          | some ty =>
            match ty.2 with
            | '/' :: r6 =>
              let seg := r6.takeWhile isSegChar
              if seg = [] then none
              else
                let r7 := r6.drop seg.length
                let idp :=
                  match r7 with
                  | '/' :: r7a =>
                    let ids := r7a.takeWhile isIdChar
                    if ids = [] then (([] : List Char), r7)
                    else ('/' :: ids, r7a.drop ids.length)
                  | _ => ([], r7)
                let qp :=
                  match idp.2 with
                  | '?' :: r8a =>
                    let q := r8a.takeWhile (fun c => !(isSpaceChar c))
                    ('?' :: q, r8a.drop q.length)
                  | _ => (([] : List Char), idp.2)
                some ("http".data ++ s.1 ++ "://music.apple.com/".data ++
                  c1 :: c2 :: '/' :: (ty.1 ++ '/' :: (seg ++ idp.1 ++ qp.1)),
                  qp.2)
            | _ => none
        else none
      | _ => none

/-- `re.findall` for the Apple Music pattern. -/
def findallApple : Nat → List Char → List (List Char)
  | 0, _ => []
  | _, [] => []
  | fuel + 1, c :: cs =>
    match matchAppleAt (c :: cs) with
    | some m => m.1 :: findallApple fuel m.2
    | none => findallApple fuel cs

/-- The `"type"` tag of an extracted link. -/
inductive Provider
  | spotify
  | apple
deriving DecidableEq

/-- One entry of the list built by `extract_all_music_links_from_chat`. -/
structure LinkRef where
  linkType : Provider
  url : String
  line_number : Nat
deriving DecidableEq

/-- The inner loop over one pattern's matches of one line: strip each
match, keep it only when non-empty and unseen, record it in the seen set
and append it to the result. -/
def processMatches (p : Provider) (lineNo : Nat) (seen : List String)
    (acc : List LinkRef) : List (List Char) → List String × List LinkRef
  | [] => (seen, acc)
  | m :: ms =>
    let url := String.mk (pyStrip m)
    if url != "" && !(seen.contains url) then
      processMatches p lineNo (url :: seen) (acc ++ [⟨p, url, lineNo⟩]) ms
    else
      processMatches p lineNo seen acc ms

/-- The per-line loop of `extract_all_music_links_from_chat`: for each
line, all Spotify matches are processed first, then all Apple Music
matches. -/
def extractLines : Nat → List String → List LinkRef → List (List Char) →
    List LinkRef
  | _, _, acc, [] => acc
  | n, seen, acc, line :: rest =>
    let s1 := processMatches Provider.spotify n seen acc
      (findallSpotify line.length line)
    let s2 := processMatches Provider.apple n s1.1 s1.2
      (findallApple line.length line)
    extractLines (n + 1) s2.1 s2.2 rest

/-- `extract_all_music_links_from_chat` (`spotify.py` lines 599–646). -/
def extract_all_music_links_from_chat (text_content : String) : List LinkRef :=
  extractLines 1 [] [] (pySplitLines text_content.data)

/-! ## Lemmas about the batch slicing -/

theorem chunksOf_nil (B : Nat) : chunksOf B ([] : List α) = [] := by
  have h : (([] : List α).length + B - 1) / B = 0 := by
    cases B with
    | zero => simp
    | succ b =>
      have hb : ([] : List α).length + (b + 1) - 1 = b := by simp
      rw [hb]
      exact Nat.div_eq_of_lt (by omega)
  unfold chunksOf pyRangeStep
  rw [h]
  rfl

theorem chunksOf_length (B : Nat) (l : List α) :
    (chunksOf B l).length = (l.length + B - 1) / B := by
  simp [chunksOf, pyRangeStep, List.length_range']

theorem chunksOf_mem_length_le (B : Nat) (l : List α) (c : List α)
    (hc : c ∈ chunksOf B l) : c.length ≤ B := by
  rcases List.mem_map.mp hc with ⟨i, _, rfl⟩
  calc ((l.drop i).take B).length ≤ B := by
        rw [List.length_take]; exact min_le_left _ _

theorem flatten_map_range'_take (l : List α) (B : Nat) :
    ∀ (k s : Nat),
      ((List.range' s k B).map (fun i => (l.drop i).take B)).flatten =
        (l.drop s).take (k * B)
  | 0, s => by simp
  | k + 1, s => by
    rw [List.range'_succ]
    simp only [List.map_cons, List.flatten_cons]
    rw [flatten_map_range'_take l B k (s + B)]
    have hdrop : List.drop B (List.drop s l) = List.drop (s + B) l :=
      List.drop_drop B s l
    rw [← hdrop, ← List.take_add]
    have harith : (k + 1) * B = B + k * B := by ring
    rw [harith]

theorem le_ceil_mul (n B : Nat) (hB : 0 < B) : n ≤ (n + B - 1) / B * B := by
  have hdm := Nat.div_add_mod (n + B - 1) B
  have hlt : (n + B - 1) % B < B := Nat.mod_lt _ hB
  rw [Nat.mul_comm]
  omega

theorem chunksOf_flatten (B : Nat) (hB : 0 < B) (l : List α) :
    (chunksOf B l).flatten = l := by
  unfold chunksOf pyRangeStep
  rw [flatten_map_range'_take l B ((l.length + B - 1) / B) 0]
  rw [List.drop_zero]
  exact List.take_of_length_le (le_ceil_mul l.length B hB)

/-! ## Lemmas about the mutator loops -/

theorem addLoop_ops (f : Nat → Bool) :
    ∀ (j : Nat) (acc : List String) (cs : List (List String)),
      (addLoop f j acc cs).1 = cs.map SpotifyOp.addItems
  | _, _, [] => rfl
  | j, acc, c :: cs => by
    simp only [addLoop, List.map_cons]
    rw [addLoop_ops f (j + 1) _ cs]

theorem addLoop_acc (f : Nat → Bool) :
    ∀ (j : Nat) (acc : List String) (cs : List (List String)),
      (addLoop f j acc cs).2 =
        acc ++ (((List.enumFrom j cs).filter (fun p => !(f p.1))).map
          Prod.snd).flatten
  | _, acc, [] => by simp [addLoop]
  | j, acc, c :: cs => by
    cases hf : f j with
    | true =>
      have ih := addLoop_acc f (j + 1) acc cs
      simp [addLoop, hf, ih]
    | false =>
      have ih := addLoop_acc f (j + 1) (acc ++ c) cs
      simp [addLoop, hf, ih, List.append_assoc]

theorem removeLoop_noFail :
    ∀ (j : Nat) (cs : List (List String)),
      removeLoop (fun _ => false) j cs = (cs.map SpotifyOp.removeItems, true)
  | _, [] => rfl
  | j, c :: cs => by
    have ih := removeLoop_noFail (j + 1) cs
    simp [removeLoop, ih]

theorem add_tracks_to_playlist_ops (f : Nat → Bool) (acc : List String)
    (uris : List String) :
    (add_tracks_to_playlist f acc uris).1 =
      (chunksOf 100 (uris.filter isValidTrackUri)).map SpotifyOp.addItems := by
  unfold add_tracks_to_playlist
  by_cases h1 : uris = []
  · subst h1
    simp [chunksOf_nil]
  · rw [if_neg h1]
    by_cases h2 : uris.filter isValidTrackUri = []
    · rw [if_pos h2, h2, chunksOf_nil]
      rfl
    · rw [if_neg h2]
      exact addLoop_ops f 0 acc _

theorem remove_tracks_noFail_ops (uris : List String) (b : Nat) :
    remove_tracks_from_playlist_in_batches (fun _ => false) uris b =
      ((chunksOf (pyClampBatch b) uris).map SpotifyOp.removeItems, true) := by
  unfold remove_tracks_from_playlist_in_batches
  by_cases h : uris = []
  · subst h
    simp [chunksOf_nil]
  · rw [if_neg h]
    exact removeLoop_noFail 0 _

/-! ## Lemmas about the divergence scan -/

theorem firstMismatchAux_append :
    ∀ (l rest : List String) (i : Nat), firstMismatchAux i (l ++ rest) l = none
  | [], rest, i => by cases rest <;> rfl
  | a :: as, rest, i => by
    simp only [List.cons_append, firstMismatchAux, if_pos rfl]
    exact firstMismatchAux_append as rest (i + 1)

theorem firstMismatchAux_self (l : List String) (i : Nat) :
    firstMismatchAux i l l = none := by
  have h := firstMismatchAux_append l [] i
  rwa [List.append_nil] at h

theorem divergence_or_sync_self (T : List String) :
    divergence_or_sync T T = none := by
  unfold divergence_or_sync
  rw [firstMismatchAux_self]
  simp

theorem divergence_or_sync_append (existing t : List String)
    (ht : t ≠ []) :
    divergence_or_sync (existing ++ t) existing = some existing.length := by
  unfold divergence_or_sync
  rw [firstMismatchAux_append]
  have hlen : ¬((existing ++ t).length = existing.length) := by
    rw [List.length_append]
    have : t.length ≠ 0 := fun h => ht (List.length_eq_zero.mp h)
    omega
  simp [hlen, ht]

/-! ## Counting lemmas for a single failed addition batch -/

theorem enumFrom_filter_gt {α : Type _} (t : Nat) :
    ∀ (cs : List α) (j : Nat), t < j →
      (List.enumFrom j cs).filter (fun p => !(p.1 == t)) = List.enumFrom j cs
  | [], _, _ => rfl
  | c :: cs, j, ht => by
    have ih := enumFrom_filter_gt t cs (j + 1) (by omega)
    have hne : ¬(j = t) := by omega
    simp [List.enumFrom_cons, List.filter_cons, hne, ih]

theorem flatten_filter_enumFrom_length {α : Type _} :
    ∀ (cs : List (List α)) (j k : Nat), k < cs.length →
      ((((List.enumFrom j cs).filter (fun p => !(p.1 == j + k))).map
        Prod.snd).flatten).length + (cs.getD k []).length = cs.flatten.length
  | [], _, _, hk => by simp at hk
  | c :: cs, j, 0, _ => by
    have hall := enumFrom_filter_gt j cs (j + 1) (by omega)
    simp [List.enumFrom_cons, List.filter_cons, hall, List.enumFrom_map_snd,
      List.length_append]
    omega
  | c :: cs, j, k + 1, hk => by
    have ih := flatten_filter_enumFrom_length cs (j + 1) k
      (by simp at hk; omega)
    have harith : j + 1 + k = j + (k + 1) := by omega
    rw [harith] at ih
    have hne : ¬(j = j + (k + 1)) := by omega
    simp [List.enumFrom_cons, List.filter_cons, hne, List.length_append]
      at ih ⊢
    omega

theorem get_track_details_length (lookup : String → String) (l : List String) :
    (get_track_details_for_logging lookup l).length = l.length := by
  unfold get_track_details_for_logging
  by_cases h : l = []
  · simp [h]
  · rw [if_neg h, ← List.map_flatten, List.length_map,
      chunksOf_flatten 50 (by omega) l]

/-! ## Lemmas about the strict track-URL resolver -/

theorem stripPrefixList_append :
    ∀ (p r : List Char), stripPrefixList p (p ++ r) = some r
  | [], _ => rfl
  | c :: p, r => by simp [stripPrefixList, stripPrefixList_append p r]

theorem stripPrefixList_some :
    ∀ (p l r : List Char), stripPrefixList p l = some r → l = p ++ r
  | [], l, r => by
    intro h
    simp only [stripPrefixList, Option.some.injEq] at h
    rw [h]
    rfl
  | _ :: _, [], _ => by
    intro h
    exact absurd h (by simp [stripPrefixList])
  | c :: p, a :: l, r => by
    intro h
    simp only [stripPrefixList] at h
    by_cases hca : c = a
    · rw [if_pos hca] at h
      rw [← hca, stripPrefixList_some p l r h]
      rfl
    · rw [if_neg hca] at h
      exact absurd h (by simp)

theorem matchTrack22At_some (l id : List Char)
    (h : matchTrack22At l = some id) :
    id.length = 22 ∧ id.all isAlnumChar = true ∧
      ∃ suf, l = "open.spotify.com/track/".data ++ (id ++ suf) := by
  cases hs : stripPrefixList "open.spotify.com/track/".data l with
  | none =>
    simp only [matchTrack22At, hs] at h
    exact absurd h (by simp)
  | some r =>
    simp only [matchTrack22At, hs] at h
    split at h
    · rename_i hcond
      rw [Bool.and_eq_true, decide_eq_true_eq] at hcond
      injection h with h
      subst h
      refine ⟨hcond.1, hcond.2, r.drop 22, ?_⟩
      rw [stripPrefixList_some _ _ _ hs, List.take_append_drop 22 r]
    · exact absurd h (by simp)

theorem matchTrack22At_complete (id suf : List Char) (h22 : id.length = 22)
    (hall : id.all isAlnumChar = true) :
    matchTrack22At ("open.spotify.com/track/".data ++ (id ++ suf)) =
      some id := by
  unfold matchTrack22At
  rw [stripPrefixList_append]
  have htake : (id ++ suf).take 22 = id := by
    rw [← h22]
    exact List.take_left id suf
  simp [htake, h22, hall]

theorem searchTrack22_sound :
    ∀ (l id : List Char), searchTrack22 l = some id →
      id.length = 22 ∧ id.all isAlnumChar = true ∧
        ("open.spotify.com/track/".data ++ id) <:+: l
  | [], id => by
    intro h
    exact absurd h (by simp [searchTrack22])
  | c :: cs, id => by
    intro h
    cases hm : matchTrack22At (c :: cs) with
    | some id0 =>
      simp only [searchTrack22, hm, Option.some.injEq] at h
      subst h
      obtain ⟨h22, hall, suf, hl⟩ := matchTrack22At_some _ _ hm
      refine ⟨h22, hall, [], suf, ?_⟩
      rw [hl]
      simp [List.append_assoc]
    | none =>
      simp only [searchTrack22, hm] at h
      have ih := searchTrack22_sound cs id h
      exact ⟨ih.1, ih.2.1, List.infix_cons ih.2.2⟩

theorem searchTrack22_complete :
    ∀ (l id : List Char),
      ("open.spotify.com/track/".data ++ id) <:+: l → id.length = 22 →
      id.all isAlnumChar = true → (searchTrack22 l).isSome = true
  | [], id => by
    intro hinf h22 _
    obtain ⟨s, t, hst⟩ := hinf
    have h1 := List.append_eq_nil.mp hst
    have h2 := List.append_eq_nil.mp h1.1
    have h3 := List.append_eq_nil.mp h2.2
    rw [h3.2] at h22
    simp at h22
  | c :: cs, id => by
    intro hinf h22 hall
    obtain ⟨s, t, hst⟩ := hinf
    cases s with
    | nil =>
      have hl : "open.spotify.com/track/".data ++ (id ++ t) = c :: cs := by
        rw [← hst]
        simp [List.append_assoc]
      have hm := matchTrack22At_complete id t h22 hall
      rw [hl] at hm
      simp [searchTrack22, hm]
    | cons a s =>
      simp only [List.cons_append] at hst
      injection hst with _ h2
      have ih := searchTrack22_complete cs id ⟨s, t, h2⟩ h22 hall
      cases hm : matchTrack22At (c :: cs) with
      | some id0 => simp [searchTrack22, hm]
      | none => simp [searchTrack22, hm, ih]

/-! ## The claims -/

/-- C2: reconciling a sequence against itself yields the terminal
"in sync" state: no removal or addition request is issued, the success
accumulator ends empty, and the in-sync message is logged. -/
theorem claim_c2 (addFails removeFails : Nat → Bool) (T : List String) :
    sync_playlist_chronologically addFails removeFails T T =
      ⟨[], [], true, true⟩ ∧
    divergence_or_sync T T = none := by
  constructor
  · unfold sync_playlist_chronologically
    rw [divergence_or_sync_self]
  · exact divergence_or_sync_self T

/-- C1: at a pair where the target is a strict prefix of the current
playlist (`target = [a]`, `current = [a, b]`), the code computes
`divergence_index = len(current) = 2` instead of `len(target) = 1`, so
it issues no request at all and reports the sync completed (`ok`,
not the in-sync state): the surplus tail `[b]` the claim requires to be
removed is left in place, contradicting the function's own promise to
make the playlist match the chat exactly. -/
theorem claim_c1 :
    divergence_or_sync ["a"] ["a", "b"] = some 2 ∧
    sync_playlist_chronologically (fun _ => false) (fun _ => false)
      ["a", "b"] ["a"] = ⟨[], [], true, false⟩ := by
  decide

/-- C3: when the current playlist is a strict prefix of the target, the
divergence index is the current length, the removal set
`current[d:]` is empty, and the only requests issued are the batched
additions of the missing tail `target[len(current):]`. -/
theorem claim_c3 (addFails removeFails : Nat → Bool)
    (existing chat : List String) (h1 : existing <+: chat)
    (h2 : existing ≠ chat) :
    divergence_or_sync chat existing = some existing.length ∧
    List.drop existing.length existing = [] ∧
    (sync_playlist_chronologically addFails removeFails existing chat).ops =
      (chunksOf 100 ((chat.drop existing.length).filter
        isValidTrackUri)).map SpotifyOp.addItems := by
  obtain ⟨t, rfl⟩ := h1
  have ht : t ≠ [] := by
    intro h0
    exact h2 (by rw [h0, List.append_nil])
  refine ⟨divergence_or_sync_append existing t ht, List.drop_length existing, ?_⟩
  unfold sync_playlist_chronologically
  rw [divergence_or_sync_append existing t ht]
  simp only [List.drop_length, List.drop_left, if_pos rfl]
  rw [if_neg (by simp)]
  rw [if_neg ht]
  simp [add_tracks_to_playlist_ops]

/-- C3 witness: the current playlist `[a]` is a strict prefix of the
target `[a, b]`. -/
theorem claim_c3_witness :
    divergence_or_sync ["a", "b"] ["a"] = some (["a"] : List String).length ∧
    List.drop (["a"] : List String).length ["a"] = [] ∧
    (sync_playlist_chronologically (fun _ => false) (fun _ => false)
      ["a"] ["a", "b"]).ops =
      (chunksOf 100 ((["a", "b"].drop (["a"] : List String).length).filter
        isValidTrackUri)).map SpotifyOp.addItems := by
  exact claim_c3 (fun _ => false) (fun _ => false) ["a"] ["a", "b"]
    ⟨["b"], rfl⟩ (by decide)

/-- C4: when both sequences are non-empty and disagree at position 0,
the engine diverges at index 0 and (absent request failures) issues
exactly the batched removal of the whole current sequence followed by
the batched addition of the whole target sequence. -/
theorem claim_c4 (t c : String) (ts cs : List String) (h : t ≠ c) :
    divergence_or_sync (t :: ts) (c :: cs) = some 0 ∧
    (sync_playlist_chronologically (fun _ => false) (fun _ => false)
      (c :: cs) (t :: ts)).ops =
      (chunksOf 100 (c :: cs)).map SpotifyOp.removeItems ++
      (chunksOf 100 ((t :: ts).filter isValidTrackUri)).map
        SpotifyOp.addItems := by
  have hdiv : divergence_or_sync (t :: ts) (c :: cs) = some 0 := by
    unfold divergence_or_sync firstMismatchAux
    simp [h]
  refine ⟨hdiv, ?_⟩
  have hclamp : pyClampBatch 100 = 100 := by decide
  simp only [sync_playlist_chronologically, hdiv, List.drop_zero]
  simp [remove_tracks_noFail_ops, add_tracks_to_playlist_ops, hclamp]

/-- C4 witness: fully divergent one-element sequences. -/
theorem claim_c4_witness :
    divergence_or_sync ["x"] ["y"] = some 0 ∧
    (sync_playlist_chronologically (fun _ => false) (fun _ => false)
      ["y"] ["x"]).ops =
      (chunksOf 100 (["y"] : List String)).map SpotifyOp.removeItems ++
      (chunksOf 100 ((["x"] : List String).filter isValidTrackUri)).map
        SpotifyOp.addItems := by
  exact claim_c4 "x" "y" [] [] (by decide)

/-- C5: with `ENABLE_DESTRUCTIVE_SYNC` false (the default), step 7 of
the run only issues addition requests — the batched append of the chat
URIs missing from the playlist — and never a removal request; with the
flag true it runs `sync_playlist_chronologically`, the full §4.4
reconciliation including removal. -/
theorem claim_c5 (addFails removeFails : Nat → Bool)
    (existing chat : List String) :
    (process_step7 addFails removeFails false existing chat).1 =
      (chunksOf 100 ((chat.filter (fun uri => !(existing.contains uri))).filter
        isValidTrackUri)).map SpotifyOp.addItems ∧
    (∀ ch : List String, SpotifyOp.removeItems ch ∉
      (process_step7 addFails removeFails false existing chat).1) ∧
    process_step7 addFails removeFails true existing chat =
      ((sync_playlist_chronologically addFails removeFails existing chat).ops,
       (sync_playlist_chronologically addFails removeFails existing chat).acc) := by
  have hops : (process_step7 addFails removeFails false existing chat).1 =
      (chunksOf 100 ((chat.filter (fun uri => !(existing.contains uri))).filter
        isValidTrackUri)).map SpotifyOp.addItems := by
    unfold process_step7
    rw [if_neg (by simp)]
    by_cases h : chat.filter (fun uri => !(existing.contains uri)) = []
    · rw [if_pos h, h]
      simp [chunksOf_nil]
    · rw [if_neg h]
      exact add_tracks_to_playlist_ops addFails [] _
  refine ⟨hops, ?_, rfl⟩
  intro ch hch
  rw [hops] at hch
  rcases List.mem_map.mp hch with ⟨a, _, heq⟩
  exact SpotifyOp.noConfusion heq

/-- C8: batch slicing issues `ceil(N/B)` requests of at most `B` items
whose concatenation reproduces the sliced list; instantiated to both
mutators: additions are the 100-chunks of the validated input in order,
removals the `batch_size`-chunks (clamped into 1..100) of the input. -/
theorem claim_c8 (B : Nat) (hB : 0 < B) (l : List String)
    (addFails : Nat → Bool) (acc uris rem_uris : List String) (b : Nat) :
    (chunksOf B l).length = (l.length + B - 1) / B ∧
    (∀ ch ∈ chunksOf B l, ch.length ≤ B) ∧
    (chunksOf B l).flatten = l ∧
    (add_tracks_to_playlist addFails acc uris).1 =
      (chunksOf 100 (uris.filter isValidTrackUri)).map SpotifyOp.addItems ∧
    (remove_tracks_from_playlist_in_batches (fun _ => false) rem_uris b).1 =
      (chunksOf (pyClampBatch b) rem_uris).map SpotifyOp.removeItems := by
  refine ⟨chunksOf_length B l, ?_, chunksOf_flatten B hB l,
    add_tracks_to_playlist_ops addFails acc uris, ?_⟩
  · intro ch hch
    exact chunksOf_mem_length_le B l ch hch
  · rw [remove_tracks_noFail_ops]

/-- C8 witness at `B = 3` and concrete mutator inputs. -/
theorem claim_c8_witness :
    (chunksOf 3 ["a", "b", "c", "d"]).length =
      ((["a", "b", "c", "d"] : List String).length + 3 - 1) / 3 ∧
    (∀ ch ∈ chunksOf 3 ["a", "b", "c", "d"], ch.length ≤ 3) ∧
    (chunksOf 3 ["a", "b", "c", "d"]).flatten = ["a", "b", "c", "d"] ∧
    (add_tracks_to_playlist (fun _ => false) []
      ["spotify:track:aaaaaaaaaaaaaaaaaaaaaa"]).1 =
      (chunksOf 100 (["spotify:track:aaaaaaaaaaaaaaaaaaaaaa"].filter
        isValidTrackUri)).map SpotifyOp.addItems ∧
    (remove_tracks_from_playlist_in_batches (fun _ => false) ["r1", "r2"] 1).1 =
      (chunksOf (pyClampBatch 1) ["r1", "r2"]).map SpotifyOp.removeItems := by
  exact claim_c8 3 (by omega) ["a", "b", "c", "d"] (fun _ => false) []
    ["spotify:track:aaaaaaaaaaaaaaaaaaaaaa"] ["r1", "r2"] 1

/-- C9: when exactly addition batch `k` fails, the success record equals
the concatenation of every batch other than `k`, its length misses the
input length by exactly the size of batch `k`, and the summary's
per-URI display list is as long as the record — the reported count
covers exactly the confirmed items. -/
theorem claim_c9 (lookup : String → String) (uris : List String) (k : Nat)
    (hvalid : uris.filter isValidTrackUri = uris) (hne : uris ≠ [])
    (hk : k < (chunksOf 100 uris).length) :
    (add_tracks_to_playlist (fun j => j == k) [] uris).2.1 =
      (((List.enumFrom 0 (chunksOf 100 uris)).filter
        (fun p => !(p.1 == k))).map Prod.snd).flatten ∧
    (add_tracks_to_playlist (fun j => j == k) [] uris).2.1.length +
      ((chunksOf 100 uris).getD k []).length = uris.length ∧
    (get_track_details_for_logging lookup
      (add_tracks_to_playlist (fun j => j == k) [] uris).2.1).length =
      (add_tracks_to_playlist (fun j => j == k) [] uris).2.1.length := by
  have hacc : (add_tracks_to_playlist (fun j => j == k) [] uris).2.1 =
      (((List.enumFrom 0 (chunksOf 100 uris)).filter
        (fun p => !(p.1 == k))).map Prod.snd).flatten := by
    unfold add_tracks_to_playlist
    rw [if_neg hne, hvalid, if_neg hne]
    have h := addLoop_acc (fun j => j == k) 0 [] (chunksOf 100 uris)
    simpa using h
  refine ⟨hacc, ?_, get_track_details_length lookup _⟩
  rw [hacc]
  have hcount := flatten_filter_enumFrom_length (chunksOf 100 uris) 0 k hk
  rw [Nat.zero_add] at hcount
  rw [hcount, chunksOf_flatten 100 (by omega) uris]

/-- C9 witness: 101 valid URIs form two batches; batch 1 (the second)
fails. -/
theorem claim_c9_witness :
    (add_tracks_to_playlist (fun j => j == 1) []
      (List.replicate 101 "spotify:track:aaaaaaaaaaaaaaaaaaaaaa")).2.1 =
      (((List.enumFrom 0 (chunksOf 100
        (List.replicate 101 "spotify:track:aaaaaaaaaaaaaaaaaaaaaa"))).filter
        (fun p => !(p.1 == 1))).map Prod.snd).flatten ∧
    (add_tracks_to_playlist (fun j => j == 1) []
      (List.replicate 101 "spotify:track:aaaaaaaaaaaaaaaaaaaaaa")).2.1.length +
      ((chunksOf 100
        (List.replicate 101 "spotify:track:aaaaaaaaaaaaaaaaaaaaaa")).getD 1
          []).length =
      (List.replicate 101 "spotify:track:aaaaaaaaaaaaaaaaaaaaaa").length ∧
    (get_track_details_for_logging (fun _ => "name")
      (add_tracks_to_playlist (fun j => j == 1) []
        (List.replicate 101 "spotify:track:aaaaaaaaaaaaaaaaaaaaaa")).2.1).length =
      (add_tracks_to_playlist (fun j => j == 1) []
        (List.replicate 101 "spotify:track:aaaaaaaaaaaaaaaaaaaaaa")).2.1.length := by
  exact claim_c9 (fun _ => "name")
    (List.replicate 101 "spotify:track:aaaaaaaaaaaaaaaaaaaaaa") 1
    (by decide) (by decide) (by decide)

/-- C10 counterexample: with a non-empty accumulator left by an earlier
call, a call on an empty input returns `0` through the early-out path —
not the accumulator's length `1` — so the claim fails as universally
stated. -/
theorem claim_c10_cex :
    (add_tracks_to_playlist (fun _ => false)
      ["spotify:track:bbbbbbbbbbbbbbbbbbbbbb"] []).2.2 = 0 ∧
    (add_tracks_to_playlist (fun _ => false)
      ["spotify:track:bbbbbbbbbbbbbbbbbbbbbb"] []).2.1 =
      ["spotify:track:bbbbbbbbbbbbbbbbbbbbbb"] ∧
    (0 : Nat) ≠ ["spotify:track:bbbbbbbbbbbbbbbbbbbbbb"].length := by
  decide

/-- C10 (amended): whenever at least one input URI passes validation,
the call's return value is the length of the process-wide accumulator
after the call — the prior contents plus every successful batch of this
call, cumulative across calls since the accumulator was last cleared —
not the number of items this call added.  (With no valid input the
function instead returns `0` unconditionally.) -/
theorem claim_c10_amended (addFails : Nat → Bool) (acc uris : List String)
    (h : uris.filter isValidTrackUri ≠ []) :
    (add_tracks_to_playlist addFails acc uris).2.2 =
      (add_tracks_to_playlist addFails acc uris).2.1.length ∧
    (add_tracks_to_playlist addFails acc uris).2.1 =
      acc ++ (((List.enumFrom 0 (chunksOf 100
        (uris.filter isValidTrackUri))).filter
        (fun p => !(addFails p.1))).map Prod.snd).flatten := by
  have hne : uris ≠ [] := by
    intro h0
    rw [h0] at h
    exact h rfl
  unfold add_tracks_to_playlist
  rw [if_neg hne, if_neg h]
  exact ⟨rfl, addLoop_acc addFails 0 acc _⟩

/-- C10 witness: one valid URI added on top of a one-element
accumulator; the return value is 2, the cumulative total. -/
theorem claim_c10_amended_witness :
    (add_tracks_to_playlist (fun _ => false)
      ["spotify:track:bbbbbbbbbbbbbbbbbbbbbb"]
      ["spotify:track:aaaaaaaaaaaaaaaaaaaaaa"]).2.2 =
      (add_tracks_to_playlist (fun _ => false)
        ["spotify:track:bbbbbbbbbbbbbbbbbbbbbb"]
        ["spotify:track:aaaaaaaaaaaaaaaaaaaaaa"]).2.1.length ∧
    (add_tracks_to_playlist (fun _ => false)
      ["spotify:track:bbbbbbbbbbbbbbbbbbbbbb"]
      ["spotify:track:aaaaaaaaaaaaaaaaaaaaaa"]).2.1 =
      ["spotify:track:bbbbbbbbbbbbbbbbbbbbbb"] ++
      (((List.enumFrom 0 (chunksOf 100
        (["spotify:track:aaaaaaaaaaaaaaaaaaaaaa"].filter
          isValidTrackUri))).filter
        (fun p => !((fun _ : Nat => false) p.1))).map Prod.snd).flatten := by
  exact claim_c10_amended (fun _ => false)
    ["spotify:track:bbbbbbbbbbbbbbbbbbbbbb"]
    ["spotify:track:aaaaaaaaaaaaaaaaaaaaaa"] (by decide)

/-- C6: on a line where an Apple Music link appears before a Spotify
link, the extractor emits the Spotify link first — each line's Spotify
matches are processed before its Apple Music matches, so output order is
not left-to-right within a line across the two patterns, contradicting
the claim and the function's own docstring ("added to the result list
in the order they appear"). -/
theorem claim_c6 :
    extract_all_music_links_from_chat
      "https://music.apple.com/us/song/winny/1840941762 https://open.spotify.com/track/aaaaaaaaaaaaaaaaaaaaaa" =
    [⟨Provider.spotify,
      "https://open.spotify.com/track/aaaaaaaaaaaaaaaaaaaaaa", 1⟩,
     ⟨Provider.apple,
      "https://music.apple.com/us/song/winny/1840941762", 1⟩] := by
  decide

/-- C7 counterexample: `main.py`'s resolver (one of the claim's cited
implementations) accepts the malformed URL
`https://open.spotify.com/track/abc`, whose identifier is 3 characters
rather than 22, and returns `spotify:track:abc` instead of abstaining —
the strict resolver of `spotify.py`/`gcp_main.py` abstains on the same
URL. -/
theorem claim_c7_cex :
    get_track_uri_from_url_main "https://open.spotify.com/track/abc" =
      some "spotify:track:abc" ∧
    get_track_uri_from_url "https://open.spotify.com/track/abc" = none ∧
    "abc".length ≠ 22 := by
  decide

/-- C7 (amended): the resolvers of `spotify.py` and `gcp_main.py`
resolve a URL exactly when the literal `open.spotify.com/track/`
followed by 22 characters of `[a-zA-Z0-9]` occurs in it, and any
returned URI is `spotify:track:` plus such a 22-character identifier
literally present in the URL — never a fabricated one.  (`main.py`'s
variant performs no such shape check, per the counterexample.) -/
theorem claim_c7_amended (spotify_url : String) :
    ((get_track_uri_from_url spotify_url).isSome = true ↔
      ∃ id : List Char, id.length = 22 ∧ id.all isAlnumChar = true ∧
        ("open.spotify.com/track/".data ++ id) <:+: spotify_url.data) ∧
    (∀ u : String, get_track_uri_from_url spotify_url = some u →
      ∃ id : List Char, id.length = 22 ∧ id.all isAlnumChar = true ∧
        ("open.spotify.com/track/".data ++ id) <:+: spotify_url.data ∧
        u = String.mk ("spotify:track:".data ++ id)) := by
  constructor
  · constructor
    · intro h
      obtain ⟨u, hu⟩ := Option.isSome_iff_exists.mp h
      unfold get_track_uri_from_url at hu
      obtain ⟨id, hid, _⟩ := Option.map_eq_some'.mp hu
      have hs := searchTrack22_sound spotify_url.data id hid
      exact ⟨id, hs.1, hs.2.1, hs.2.2⟩
    · intro h
      obtain ⟨id, h22, hall, hinf⟩ := h
      have hsome := searchTrack22_complete spotify_url.data id hinf h22 hall
      obtain ⟨id0, hid0⟩ := Option.isSome_iff_exists.mp hsome
      unfold get_track_uri_from_url
      rw [hid0]
      rfl
  · intro u hu
    unfold get_track_uri_from_url at hu
    obtain ⟨id, hid, hmk⟩ := Option.map_eq_some'.mp hu
    have hs := searchTrack22_sound spotify_url.data id hid
    exact ⟨id, hs.1, hs.2.1, hs.2.2, hmk.symm⟩

end SpotifySync
